import Mathlib

/-!
Verification development for the jessipes untrusted-URL metadata extractor
(Cloudflare worker, `src/worker/index.js`).  The worker functions
`isValidUrl`, `resolveUrl`, `extractMetaContent` and `extractPreviewImage`
are embedded shallowly as executable Lean functions over `List Char` /
`String`.  The platform primitive `new URL(...)` (WHATWG URL parser) is
modelled by `parseUrl` for the URL shapes relevant here: scheme
recognition, authority splitting, host lowercasing, bracketed IPv6 hosts,
port validation.  Deliberate model simplifications that do not affect the
claims: no punycode/IDNA, no percent-decoding of hosts, no WHATWG IPv4
canonicalisation of exotic numeric hosts.  Response bodies are modelled as
lists of UTF-8 chunks given as Lean strings; the byte counter used by the
size limit is the UTF-8 byte length of each chunk.
-/

/-- Test whether `pat` occurs at the start of `s` (exact, case sensitive).
Models the JavaScript startsWith test. -/
def headEq : List Char → List Char → Bool
| [], _ => true
| _ :: _, [] => false
| p :: ps, c :: cs => p == c && headEq ps cs

/-- Test whether `pat` occurs somewhere in `s` (exact, case sensitive).
Models the JavaScript includes test. -/
def hasSub (pat : List Char) : List Char → Bool
| [] => headEq pat []
| c :: rest => headEq pat (c :: rest) || hasSub pat rest

/-- JavaScript regex `\s` restricted to the ASCII whitespace characters. -/
def jsWs (c : Char) : Bool :=
  c == ' ' || c == '\t' || c == '\n' || c == '\r' || c == (Char.ofNat 11) || c == (Char.ofNat 12)

/-- The two quote characters of the regex quote class (double and single
quote). -/
def isQuoteCh (c : Char) : Bool := c == '"' || c == (Char.ofNat 39)

/-- Case-insensitive literal matcher: consumes `pat` from the front of the
subject (both sides lowered), returning the rest.  Models a literal run of
a JavaScript regex compiled with the `i` flag. -/
def matchLitCI : List Char → List Char → Option (List Char)
| [], s => some s
| _ :: _, [] => none
| p :: ps, c :: cs => if p.toLower == c.toLower then matchLitCI ps cs else none

/-- Matcher for `\s+`: requires at least one whitespace character and
consumes the maximal run.  Because every literal that follows `\s+` in the
worker patterns starts with a non-whitespace character, the maximal-munch
behaviour is equivalent to the backtracking regex semantics. -/
def matchWs1 (s : List Char) : Option (List Char) :=
  match s with
  | c :: rest => if jsWs c then some (rest.dropWhile jsWs) else none
  | [] => none

/-- Matcher for the regex quote class. -/
def matchQuote : List Char → Option (List Char)
| c :: rest => if isQuoteCh c then some rest else none
| [] => none

/-- Matcher for the capture group followed by a closing quote: the capture
takes the maximal run of non-quote characters and the following character
must be a quote.  As the captured class excludes both quotes this is
equivalent to the backtracking semantics.  The regex accepts a closing
quote different from the opening one, and so does this model. -/
def takeCapture (s : List Char) : Option (List Char × List Char) :=
  let v := s.takeWhile (fun c => !(isQuoteCh c))
  let rest := s.dropWhile (fun c => !(isQuoteCh c))
  match rest with
  | _ :: tail => some (v, tail)
  | [] => none

/-- Attempt, anchored at the start of `s`, of the worker meta-tag pattern
whose key attribute precedes the content attribute (case-insensitive): the
meta opening, whitespace, the attribute word (property or name) and an
equals sign, a quote, the key, a quote, whitespace, the content word and an
equals sign, a quote, and the captured value up to a closing quote. -/
def matchAttrFirst (attr key : List Char) (s : List Char) : Option (List Char) := do
  let s1 ← matchLitCI ( "<meta".data) s
  let s2 ← matchWs1 s1
  let s3 ← matchLitCI (attr ++ [ '=' ]) s2
  let s4 ← matchQuote s3
  let s5 ← matchLitCI key s4
  let s6 ← matchQuote s5
  let s7 ← matchWs1 s6
  let s8 ← matchLitCI ( "content=".data) s7
  let s9 ← matchQuote s8
  let (v, _) ← takeCapture s9
  pure v

/-- Attempt, anchored at the start of `s`, of the worker meta-tag pattern
whose content attribute precedes the key attribute (case-insensitive). -/
def matchContentFirst (attr key : List Char) (s : List Char) : Option (List Char) := do
  let s1 ← matchLitCI ( "<meta".data) s
  let s2 ← matchWs1 s1
  let s3 ← matchLitCI ( "content=".data) s2
  let s4 ← matchQuote s3
  let (v, s5) ← takeCapture s4
  let s6 ← matchWs1 s5
  let s7 ← matchLitCI (attr ++ [ '=' ]) s6
  let s8 ← matchQuote s7
  let s9 ← matchLitCI key s8
  let _ ← matchQuote s9
  pure v

/-- Leftmost-match search: try the anchored matcher at index 0, 1, 2, …
and return the first capture.  Models `String.prototype.match`. -/
def searchPat (m : List Char → Option (List Char)) : List Char → Option (List Char)
| [] => m []
| c :: rest =>
  match m (c :: rest) with
  | some v => some v
  | none => searchPat m rest

/-- Fuel-driven worker for `replaceAll`; the fuel is the subject length,
which bounds the number of steps since each step consumes at least one
character. -/
def replAux (pat rep : List Char) : Nat → List Char → List Char
| _, [] => []
| 0, s => s
| Nat.succ f, c :: rest =>
  if headEq pat (c :: rest) then rep ++ replAux pat rep f ((c :: rest).drop pat.length)
  else c :: replAux pat rep f rest

/-- Global, non-overlapping, left-to-right replacement of the literal
`pat` by `rep`.  Models `String.prototype.replace` with a `g`-flagged
literal regex. -/
def replaceAll (pat rep s : List Char) : List Char :=
  if pat.isEmpty then s else replAux pat rep s.length s

/-- The entity decoding chain of `extractMetaContent`
(`src/worker/index.js`): six global replacements applied in this fixed
order, `&amp;` first. -/
def decodeEntities (s : List Char) : List Char :=
  replaceAll ( "&#x2F;".data) ( "/".data)
    (replaceAll ( "&#x27;".data) [Char.ofNat 39]
      (replaceAll ( "&quot;".data) ( "\"".data)
        (replaceAll ( "&gt;".data) ( ">".data)
          (replaceAll ( "&lt;".data) ( "<".data)
            (replaceAll ( "&amp;".data) ( "&".data) s)))))

/-- The pattern loop of `extractMetaContent`: try each compiled pattern in
order; a match whose capture is the empty string is falsy in JavaScript
(`match[1]` check) and the loop moves on; a non-empty capture is decoded
and returned. -/
def tryPatterns : List (List Char → Option (List Char)) → List Char → Option String
| [], _ => none
| p :: ps, h =>
  match searchPat p h with
  | some v => if v.isEmpty then tryPatterns ps h else some (String.mk (decodeEntities v))
  | none => tryPatterns ps h

/-- Model of `extractMetaContent(html, property, name)` from `src/worker/index.js`:
two `property=` patterns (attribute-first and content-first), then, when a
`name` is supplied, two `name=` patterns, tried in that order. -/
def extractMetaContent (html property : String) (name : Option String) : Option String :=
  let pats :=
    [matchAttrFirst ( "property".data) property.data,
     matchContentFirst ( "property".data) property.data] ++
    (match name with
     | some n => [matchAttrFirst ( "name".data) n.data, matchContentFirst ( "name".data) n.data]
     | none => [])
  tryPatterns pats html.data

/-! ## Model of the platform URL parser (`new URL`) -/

/-- The fields of a parsed URL object used by the worker. -/
structure URLObj where
  protocol : String
  hostname : String
  port : String
deriving Repr, DecidableEq

/-- The host field: hostname plus the non-default port, as in the WHATWG
URL class. -/
def URLObj.host (u : URLObj) : String :=
  if u.port = "" then u.hostname else u.hostname ++ ":" ++ u.port

/-- C0 control characters and space, stripped from the ends of URL input. -/
def c0OrSpace (c : Char) : Bool := c.toNat ≤ 32

/-- ASCII tab and newline, which the URL parser removes anywhere. -/
def isTabOrNl (c : Char) : Bool := c == '\t' || c == '\n' || c == '\r'

/-- Characters allowed in a URL scheme after the first letter. -/
def schemeChar (c : Char) : Bool := c.isAlphanum || c == '+' || c == '-' || c == '.'

/-- Split off the scheme: a letter followed by scheme characters and a
colon.  Returns the lowercased scheme and the rest; absolute-URL inputs
without this shape fail to parse. -/
def schemeRest (s : List Char) : Option (List Char × List Char) :=
  match s with
  | [] => none
  | c :: _ =>
    if !c.isAlpha then none
    else
      let sch := s.takeWhile schemeChar
      let rest := s.dropWhile schemeChar
      match rest with
      | ':' :: r => some (sch.map Char.toLower, r)
      | _ => none

/-- Part of an authority after the last `@` (userinfo removal). -/
def afterLastAt : List Char → List Char
| [] => []
| c :: rest =>
  if rest.contains '@' then afterLastAt rest
  else if c == '@' then rest
  else c :: rest

/-- A few code points the URL standard forbids inside a (non-bracketed)
host; the remaining forbidden code points are already excluded by the
authority and host/port splitting. -/
def forbiddenHostChar (c : Char) : Bool :=
  c == ' ' || c == '<' || c == '>' || c == '^' || c == '|' || c == (Char.ofNat 0)

/-- Decimal digit run to a number, as JavaScript `Number` on digit
strings. -/
def digitsToNat (l : List Char) : Nat := l.foldl (fun a c => a * 10 + (c.toNat - 48)) 0

/-- Validate and canonicalise a port: digits only, at most 65535, and the
scheme default ports are elided. -/
def portPart (host : List Char) (p : List Char) (scheme : List Char) :
    Option (List Char × List Char) :=
  if p.isEmpty then some (host, [])
  else if !(p.all Char.isDigit) then none
  else
    let n := digitsToNat p
    if n > 65535 then none
    else if (scheme = "http".data ∧ n = 80) ∨ (scheme = "https".data ∧ n = 443) then
      some (host, [])
    else some (host, (Nat.repr n).data)

/-- Split a `host[:port]` component, lowercasing the host, handling
bracketed IPv6 hosts (whose serialisation keeps the brackets, so
`url.hostname` for `http://[::1]/` is the string `[::1]`). -/
def parseHostPort (hp : List Char) (scheme : List Char) :
    Option (List Char × List Char) :=
  match hp with
  | [] => none
  | '[' :: rest =>
    let inner := rest.takeWhile (fun c => c != ']')
    let after := rest.dropWhile (fun c => c != ']')
    match after with
    | ']' :: tail =>
      if inner.isEmpty then none
      else
        let host := ('[' :: inner.map Char.toLower) ++ [']']
        match tail with
        | [] => some (host, [])
        | ':' :: p => portPart host p scheme
        | _ => none
    | _ => none
  | c :: rest =>
    let hp := c :: rest
    let host := hp.takeWhile (fun x => x != ':')
    let r := hp.dropWhile (fun x => x != ':')
    if host.isEmpty then none
    else if host.any forbiddenHostChar then none
    else
      let host := host.map Char.toLower
      match r with
      | [] => some (host, [])
      | ':' :: p => portPart host p scheme
      | _ => none

/-- Model of `new URL(url)` restricted to the fields the worker reads.
`none` models the constructor throwing.  For the special schemes `http`
and `https` the authority is parsed and an empty host is a parse failure;
other schemes parse as opaque (empty host), which is all the worker needs
since it only inspects hosts of http(s) URLs. -/
def parseUrl (url : String) : Option URLObj :=
  let s1 := url.data.dropWhile c0OrSpace
  let s2 := (s1.reverse.dropWhile c0OrSpace).reverse
  let s := s2.filter (fun c => !(isTabOrNl c))
  match schemeRest s with
  | none => none
  | some (sch, rest) =>
    if sch = "http".data ∨ sch = "https".data then
      let rest2 := rest.dropWhile (fun c => c == '/' || c == '\\')
      let auth := rest2.takeWhile (fun c => !(c == '/' || c == '\\' || c == '?' || c == '#'))
      let hp := afterLastAt auth
      match parseHostPort hp sch with
      | none => none
      | some (h, p) => some ⟨String.mk (sch ++ [':']), String.mk h, String.mk p⟩
    else
      some ⟨String.mk (sch ++ [':']), "", ""⟩

/-! ## URL validator (`isValidUrl`) -/

/-- Split a character list at the dots. -/
def splitDots : List Char → List (List Char)
| [] => [[]]
| c :: rest =>
  if c == '.' then [] :: splitDots rest
  else
    match splitDots rest with
    | [] => [[c]]
    | g :: gs => (c :: g) :: gs

/-- One group of the worker regex `(\d{1,3})`: one to three digits. -/
def octet (s : List Char) : Bool :=
  decide (1 ≤ s.length) && decide (s.length ≤ 3) && s.all Char.isDigit

/-- The anchored match
`^(\d{1,3})\.(\d{1,3})\.(\d{1,3})\.(\d{1,3})$` of `isValidUrl`, with the
four captures converted by `Number`.  The anchored regex is equivalent to:
exactly four dot-separated groups of one to three digits. -/
def ipv4Match (hostname : String) : Option (Nat × Nat × Nat × Nat) :=
  match splitDots hostname.data with
  | [a, b, c, d] =>
    if octet a && octet b && octet c && octet d then
      some (digitsToNat a, digitsToNat b, digitsToNat c, digitsToNat d)
    else none
  | _ => none

/-- Model of `isValidUrl(url)` from `src/worker/index.js`: parse (a throw yields
`false`), allow only http/https, block the loopback host list, block the
private/link-local IPv4 ranges when the hostname matches the dotted-quad
regex. -/
def isValidUrl (url : String) : Bool :=
  match parseUrl url with
  | none => false
  | some u =>
    if !(u.protocol == "http:" || u.protocol == "https:") then false
    else if u.hostname == "localhost" || u.hostname == "127.0.0.1" || u.hostname == "::1" then
      false
    else
      match ipv4Match u.hostname with
      | none => true
      | some (a, b, _, _) =>
        if a == 10 then false
        else if a == 172 && decide (16 ≤ b) && decide (b ≤ 31) then false
        else if a == 192 && b == 168 then false
        else if a == 169 && b == 254 then false
        else true

/-! ## Relative URL resolution (`resolveUrl`) -/

/-- Model of `resolveUrl(imageUrl, baseUrl)` from `src/worker/index.js`.  Here `none`
models the `new URL(baseUrl)` constructor throwing in the branches that
parse the base URL; that exception propagates to the enclosing
try/catch of `extractPreviewImage`. -/
def resolveUrl (imageUrl baseUrl : String) : Option String :=
  if headEq ( "//".data) imageUrl.data then some ( "https:" ++ imageUrl)
  else if headEq ( "/".data) imageUrl.data then
    match parseUrl baseUrl with
    | none => none
    | some u => some (u.protocol ++ "//" ++ u.host ++ imageUrl)
  else if !headEq ( "http".data) imageUrl.data then
    match parseUrl baseUrl with
    | none => none
    | some u => some (u.protocol ++ "//" ++ u.host ++ "/" ++ imageUrl)
  else some imageUrl

/-! ## Bounded fetch and extraction pipeline (`extractPreviewImage`) -/

/-- A fetched response as the worker observes it: `ok`, the declared
content type header, and the body as a sequence of UTF-8 chunks. -/
structure FetchResp where
  ok : Bool
  contentType : Option String
  chunks : List String
deriving Repr, DecidableEq

/-- Outcome of the platform `fetch`: either a thrown error (network
failure or the 10 s timeout abort) or a response. -/
inductive FetchOutcome where
| err : FetchOutcome
| resp : FetchResp → FetchOutcome
deriving Repr, DecidableEq

/-- UTF-8 byte length of a chunk, the quantity `value.length` of the
`Uint8Array` chunks in the worker read loop. -/
def byteLen : List Char → Nat
| [] => 0
| c :: cs => c.utf8Size + byteLen cs

/-- Total byte size of a body. -/
def sumBytes : List String → Nat
| [] => 0
| c :: cs => byteLen c.data + sumBytes cs

/-- The constant `MAX_HTML_SIZE` from the worker: 1 MiB. -/
def MAX_HTML_SIZE : Nat := 1024 * 1024

/-- The incremental read loop of `extractPreviewImage`: accumulate chunk
sizes, and on crossing `MAX_HTML_SIZE` cancel the reader and throw
(modelled as `none`); otherwise decode the concatenation. -/
def readChunks : List String → Nat → Option String
| [], _ => some ""
| c :: rest, total =>
  let t := total + byteLen c.data
  if t > MAX_HTML_SIZE then none
  else
    match readChunks rest t with
    | none => none
    | some h => some (c ++ h)

/-- The declared content type check of the worker: the header value, with
a missing header read as the empty string, must contain the substring
text/html. -/
def ctIncludesHtml (ct : Option String) : Bool :=
  hasSub ( "text/html".data) (ct.getD "").data

/-- JavaScript `a || b` on nullable strings: the empty string is falsy. -/
def jsOr (a b : Option String) : Option String :=
  match a with
  | some x => if x = "" then b else some x
  | none => b

/-- One candidate step of the fallback chain: resolve the matched value,
return it when the re-validation passes, fall through to `next` when it
fails; a resolution exception (`none`) aborts the whole extraction. -/
def imageStageResult (v url : String) (next : Option String) : Option String :=
  match resolveUrl v url with
  | none => none
  | some r => if isValidUrl r then some r else next

/-- Third stage of `extractPreviewImage`: the generic `image`/`thumbnail`
meta tags. -/
def afterTwitter (html url : String) : Option String :=
  match jsOr (extractMetaContent html "image" none)
      (extractMetaContent html "thumbnail" (some "thumbnail")) with
  | some v => imageStageResult v url none
  | none => none

/-- Second stage of `extractPreviewImage`: the Twitter card image. -/
def afterOg (html url : String) : Option String :=
  match extractMetaContent html "twitter:image" (some "twitter:image") with
  | some v => imageStageResult v url (afterTwitter html url)
  | none => afterTwitter html url

/-- The pure extraction core of `extractPreviewImage` on a decoded HTML
document: OpenGraph image, then Twitter card image, then generic
image/thumbnail, each resolved against the page URL and re-validated. -/
def extractPreviewImageCore (html url : String) : Option String :=
  match extractMetaContent html "og:image" none with
  | some v => imageStageResult v url (afterOg html url)
  | none => afterOg html url

/-- Observable trace of one `extractPreviewImage` call: the returned
value, whether the network fetcher was invoked, and whether the body was
read. -/
structure RunTrace where
  result : Option String
  fetched : Bool
  bodyRead : Bool
deriving Repr, DecidableEq

/-- Model of `extractPreviewImage(url)` from `src/worker/index.js`, parameterised
by the platform fetcher.  Every failure path of the source lands in the
enclosing try/catch and yields `null`; the model is accordingly total and
returns `none` on those paths. -/
def extractPreviewImage (fetcher : String → FetchOutcome) (url : String) : RunTrace :=
  if isValidUrl url then
    match fetcher url with
    | FetchOutcome.err => ⟨none, true, false⟩
    | FetchOutcome.resp r =>
      if r.ok then
        if ctIncludesHtml r.contentType then
          match readChunks r.chunks 0 with
          | none => ⟨none, true, true⟩
          | some html => ⟨extractPreviewImageCore html url, true, true⟩
        else ⟨none, true, false⟩
      else ⟨none, true, false⟩
  else ⟨none, false, false⟩

/-! ## Title extraction (modelled from the spec) -/

/-- Anchored matcher for the `<title>` tag text:
`<title>` (case-insensitive), the text up to the next `<`, then
`</title>`. -/
def matchTitleTag (s : List Char) : Option (List Char) := do
  let s1 ← matchLitCI ( "<title>".data) s
  let v := s1.takeWhile (fun c => c != '<')
  let s2 := s1.dropWhile (fun c => c != '<')
  let _ ← matchLitCI ( "</title>".data) s2
  pure v

/-- Modelled from the spec: the `<title>` tag text of the title fallback
chain (§4.3); the worker implementation of the extract-title operation is
absent from the sources and only its tests appear.  Matching and entity
decoding mirror `extractMetaContent`: first match, empty text is falsy,
the five-entry entity chain decodes the text. -/
def titleTagContent (html : String) : Option String :=
  match searchPat matchTitleTag html.data with
  | some v => if v.isEmpty then none else some (String.mk (decodeEntities v))
  | none => none

/-- The hostname of a parsed URL, or the empty string. -/
def hostnameOf (url : String) : String :=
  match parseUrl url with
  | some u => u.hostname
  | none => ""

/-- Modelled from the spec: the title fallback chain of the extract-title
operation (§4.3), absent from the sources — OpenGraph title, then Twitter
card title, then the `<title>` tag text, then the request hostname as a
last-resort label. -/
def extractTitleCore (html url : String) : String :=
  match extractMetaContent html "og:title" none with
  | some t => t
  | none =>
    match extractMetaContent html "twitter:title" (some "twitter:title") with
    | some t => t
    | none =>
      match titleTagContent html with
      | some t => t
      | none => hostnameOf url

/-- Modelled from the spec: the error taxonomy (§7) surfaced by the
extract-title operation. -/
inductive TitleError where
| invalidInput : TitleError
| fetchFailed : TitleError
| httpStatus : TitleError
| notHtml : TitleError
| tooLarge : TitleError
deriving Repr, DecidableEq

/-- Modelled from the spec: the extract-title operation (§4.4, §7), whose
worker implementation is absent from the sources (only its tests appear):
validate, fetch with the same bounds as the image path, check the declared
content type, read the body under the byte limit, extract the title with
the fallback chain; each failure surfaces as a typed error. -/
def extractTitle (fetcher : String → FetchOutcome) (url : String) :
    Except TitleError String :=
  if isValidUrl url then
    match fetcher url with
    | FetchOutcome.err => Except.error TitleError.fetchFailed
    | FetchOutcome.resp r =>
      if r.ok then
        if ctIncludesHtml r.contentType then
          match readChunks r.chunks 0 with
          | none => Except.error TitleError.tooLarge
          | some html => Except.ok (extractTitleCore html url)
        else Except.error TitleError.notHtml
      else Except.error TitleError.httpStatus
  else Except.error TitleError.invalidInput

/-! ## Concrete documents used as inputs -/

/-- A document whose og:image points at a blocked address while its
twitter:image points at a public host. -/
def html_c3 : String := "<meta property=\"og:image\" content=\"http://localhost/evil.jpg\"><meta name=\"twitter:image\" content=\"https://cdn.example.com/i.jpg\">"

/-- A document whose og:image content holds a doubly-encoded entity. -/
def html_c10 : String := "<meta property=\"og:image\" content=\"x&amp;lt;y\">"

/-- A body chunk one byte over the 1 MiB limit. -/
def bigChunk : String := String.mk (List.replicate 1048577 'a')

/-! ## Model sanity checks -/

example : extractMetaContent "<meta property=\"og:image\" content=\"https://a.com/x.png\">" "og:image" none = some "https://a.com/x.png" := by rfl

example : extractMetaContent "<meta content=\"https://a.com/x.png\" property=\"og:image\">" "og:image" none = some "https://a.com/x.png" := by rfl

example : extractMetaContent "<meta name=\"twitter:image\" content=\"https://a.com/t.png\">" "twitter:image" (some "twitter:image") = some "https://a.com/t.png" := by rfl

example : extractMetaContent "<meta name=\"twitter:image\" content=\"https://a.com/t.png\">" "twitter:image" none = none := by rfl

example : extractMetaContent "<meta property=\"og:image\" content=\"a&amp;b\">" "og:image" none = some "a&b" := by rfl

example : decodeEntities ( "&amp;lt;".data) = "<".data := by rfl

example : parseUrl "https://example.com/page" = some ⟨ "https:", "example.com", ""⟩ := by rfl

example : parseUrl "http://10.0.0.1/x" = some ⟨ "http:", "10.0.0.1", ""⟩ := by rfl

example : parseUrl "http://EXAMPLE.com:8080/x" = some ⟨ "http:", "example.com", "8080"⟩ := by rfl

example : parseUrl "http://example.com:80/x" = some ⟨ "http:", "example.com", ""⟩ := by rfl

example : parseUrl "http://[::1]/x" = some ⟨ "http:", "[::1]", ""⟩ := by rfl

example : parseUrl "not a url" = none := by rfl

example : parseUrl "http://" = none := by rfl

example : parseUrl "ftp://example.com/x" = some ⟨ "ftp:", "", ""⟩ := by rfl

example : parseUrl "http://user@host.com/x" = some ⟨ "http:", "host.com", ""⟩ := by rfl

example : parseUrl "http://example.com:99999/" = none := by rfl

example : isValidUrl "https://example.com/page" = true := by rfl

example : isValidUrl "http://10.0.0.1/x" = false := by rfl

example : isValidUrl "http://172.20.1.1/x" = false := by rfl

example : isValidUrl "http://172.32.1.1/x" = true := by rfl

example : isValidUrl "http://192.168.1.1/x" = false := by rfl

example : isValidUrl "http://169.254.0.9/x" = false := by rfl

example : isValidUrl "http://localhost/x" = false := by rfl

example : isValidUrl "ftp://example.com/x" = false := by rfl

example : isValidUrl "not a url" = false := by rfl

example : resolveUrl "/images/preview.jpg" "https://example.com/recipe-page" = some "https://example.com/images/preview.jpg" := by rfl

example : resolveUrl "//cdn.example.com/image.jpg" "http://example.com/page" = some "https://cdn.example.com/image.jpg" := by rfl

example : resolveUrl "pic.png" "https://example.com/dir/page" = some "https://example.com/pic.png" := by rfl

example : resolveUrl "https://other.com/i.png" "https://example.com/" = some "https://other.com/i.png" := by rfl

example : resolveUrl "httpx.jpg" "https://example.com/page" = some "httpx.jpg" := by rfl

example : extractPreviewImageCore "<meta property=\"og:image\" content=\"https://a.com/x.png\"><meta name=\"twitter:image\" content=\"https://a.com/t.png\">" "https://example.com/p" = some "https://a.com/x.png" := by rfl

example : extractPreviewImageCore "<meta property=\"og:image\" content=\"http://localhost/evil.jpg\"><meta name=\"twitter:image\" content=\"https://cdn.example.com/i.jpg\">" "https://example.com/p" = some "https://cdn.example.com/i.jpg" := by rfl

example : extractPreviewImageCore "<meta name=\"thumbnail\" content=\"/t.png\">" "https://example.com/p" = some "https://example.com/t.png" := by rfl

example : extractPreviewImageCore "no tags here" "https://example.com/p" = none := by rfl

example : extractTitleCore "<title>Recipe Title from Title Tag</title>" "https://example.com/page" = "Recipe Title from Title Tag" := by rfl

example : extractTitleCore "<title>Recipe &amp; Cooking &lt;Guide&gt;</title>" "https://example.com/page" = "Recipe & Cooking <Guide>" := by rfl

example : extractTitleCore "<html><head></head></html>" "https://example.com/page" = "example.com" := by rfl

example : extractTitleCore "<meta property=\"og:title\" content=\"OG T\" /><title>F</title>" "https://example.com/page" = "OG T" := by rfl

/-! ## Helper lemmas -/

theorem replAux_id (pat rep : List Char) :
    ∀ (s : List Char), hasSub pat s = false → ∀ f, replAux pat rep f s = s := by
  intro s
  induction s with
  | nil => intro _ f; cases f <;> rfl
  | cons c rest ih =>
    intro h f
    have h2 : headEq pat (c :: rest) = false ∧ hasSub pat rest = false := by
      simpa [hasSub, Bool.or_eq_false_iff] using h
    cases f with
    | zero => rfl
    | succ f => simp [replAux, h2.1, ih h2.2 f]

theorem replaceAll_id (pat rep s : List Char) (h : hasSub pat s = false) :
    replaceAll pat rep s = s := by
  by_cases hp : pat.isEmpty <;> simp [replaceAll, hp, replAux_id pat rep s h]

theorem decodeEntities_id (s : List Char)
    (h1 : hasSub ( "&amp;".data) s = false)
    (h2 : hasSub ( "&lt;".data) s = false)
    (h3 : hasSub ( "&gt;".data) s = false)
    (h4 : hasSub ( "&quot;".data) s = false)
    (h5 : hasSub ( "&#x27;".data) s = false)
    (h6 : hasSub ( "&#x2F;".data) s = false) :
    decodeEntities s = s := by
  unfold decodeEntities
  rw [replaceAll_id _ _ _ h1, replaceAll_id _ _ _ h2, replaceAll_id _ _ _ h3,
    replaceAll_id _ _ _ h4, replaceAll_id _ _ _ h5, replaceAll_id _ _ _ h6]

theorem readChunks_none :
    ∀ (chunks : List String) (total : Nat), total ≤ MAX_HTML_SIZE →
      MAX_HTML_SIZE < total + sumBytes chunks → readChunks chunks total = none := by
  intro chunks
  induction chunks with
  | nil =>
    intro total h1 h2
    simp [sumBytes] at h2
    omega
  | cons c rest ih =>
    intro total h1 h2
    simp only [readChunks]
    by_cases hc : total + byteLen c.data > MAX_HTML_SIZE
    · simp [hc]
    · push_neg at hc
      have hrec := ih (total + byteLen c.data) hc (by simp [sumBytes] at h2; omega)
      simp [Nat.not_lt.mpr hc, hrec]

theorem sumBytes_nil : sumBytes [] = 0 := rfl

theorem sumBytes_cons (c : String) (cs : List String) :
    sumBytes (c :: cs) = byteLen c.data + sumBytes cs := rfl

theorem byteLen_replicate (n : Nat) : byteLen (List.replicate n 'a') = n := by
  induction n with
  | zero => rfl
  | succ n ih =>
    rw [List.replicate_succ]
    show Char.utf8Size 'a' + byteLen (List.replicate n 'a') = n + 1
    rw [ih, show Char.utf8Size 'a' = 1 from rfl]
    omega

theorem imageStageResult_valid (v url : String) (next : Option String) (r : String)
    (h : imageStageResult v url next = some r) : isValidUrl r = true ∨ next = some r := by
  cases hres : resolveUrl v url with
  | none => simp [imageStageResult, hres] at h
  | some x =>
    simp only [imageStageResult, hres] at h
    by_cases hv : isValidUrl x = true
    · rw [if_pos hv] at h
      cases h
      exact Or.inl hv
    · rw [if_neg hv] at h
      exact Or.inr h

theorem afterTwitter_valid (html url r : String)
    (h : afterTwitter html url = some r) : isValidUrl r = true := by
  unfold afterTwitter at h
  cases hm : jsOr (extractMetaContent html "image" none)
      (extractMetaContent html "thumbnail" (some "thumbnail")) with
  | none => rw [hm] at h; exact absurd h (by simp)
  | some v =>
    rw [hm] at h
    rcases imageStageResult_valid v url none r h with hv | hnone
    · exact hv
    · exact absurd hnone (by simp)

theorem afterOg_valid (html url r : String)
    (h : afterOg html url = some r) : isValidUrl r = true := by
  unfold afterOg at h
  cases hm : extractMetaContent html "twitter:image" (some "twitter:image") with
  | none => rw [hm] at h; exact afterTwitter_valid html url r h
  | some v =>
    rw [hm] at h
    rcases imageStageResult_valid v url (afterTwitter html url) r h with hv | hnext
    · exact hv
    · exact afterTwitter_valid html url r hnext

theorem extractPreviewImageCore_valid (html url r : String)
    (h : extractPreviewImageCore html url = some r) : isValidUrl r = true := by
  unfold extractPreviewImageCore at h
  cases hm : extractMetaContent html "og:image" none with
  | none => rw [hm] at h; exact afterOg_valid html url r h
  | some v =>
    rw [hm] at h
    rcases imageStageResult_valid v url (afterOg html url) r h with hv | hnext
    · exact hv
    · exact afterOg_valid html url r hnext

theorem dslash_headEq (l : List Char) (h : headEq ( "/".data) l = false) :
    headEq ( "//".data) l = false := by
  cases l with
  | nil => rfl
  | cons c rest =>
    have h1 : ('/' == c) = false := by
      by_contra hcc
      rw [Bool.not_eq_false] at hcc
      simp [headEq, hcc] at h
    show headEq ('/' :: '/' :: []) (c :: rest) = false
    simp [headEq, h1]

/-! ## Claim theorems -/

/-- C1: every input URL that fails to parse as an absolute URL, or whose
scheme is not http or https, or whose hostname is localhost, 127.0.0.1 or
::1, or whose hostname is a literal dotted-quad IPv4 address inside
10.0.0.0/8, 172.16.0.0/12, 192.168.0.0/16 or 169.254.0.0/16, is rejected
by `isValidUrl`, and `extractPreviewImage` on it returns no image without
ever invoking the network fetcher. -/
theorem c1_validator_rejects_and_no_fetch (url : String)
    (h : parseUrl url = none
      ∨ ∃ u, parseUrl url = some u ∧
        (¬(u.protocol = "http:" ∨ u.protocol = "https:")
         ∨ (u.hostname = "localhost" ∨ u.hostname = "127.0.0.1" ∨ u.hostname = "::1")
         ∨ ∃ a b c d, ipv4Match u.hostname = some (a, b, c, d)
             ∧ b ≤ 255 ∧ c ≤ 255 ∧ d ≤ 255
             ∧ (a = 10 ∨ (a = 172 ∧ 16 ≤ b ∧ b ≤ 31) ∨ (a = 192 ∧ b = 168)
                ∨ (a = 169 ∧ b = 254)))) :
    isValidUrl url = false
    ∧ ∀ fetcher : String → FetchOutcome,
        extractPreviewImage fetcher url = ⟨none, false, false⟩ := by
  have hv : isValidUrl url = false := by
    rcases h with hnone | ⟨u, hu, hcase⟩
    · simp [isValidUrl, hnone]
    · rcases hcase with hs | hl | ⟨a, b, c, d, hip, hb, hc, hd, hr⟩
      · push_neg at hs
        simp [isValidUrl, hu, hs.1, hs.2]
      · rcases hl with hl | hl | hl <;> simp [isValidUrl, hu, hl]
      · rcases hr with ha | ⟨ha, hb1, hb2⟩ | ⟨ha, hb1⟩ | ⟨ha, hb1⟩ <;>
          subst ha <;> simp [isValidUrl, hu, hip, *]
  refine ⟨hv, fun fetcher => ?_⟩
  simp [extractPreviewImage, hv]

/-- C1 witness: the private address 192.168.1.1 is rejected and the
fetcher is never invoked. -/
theorem c1_witness :
    isValidUrl "http://192.168.1.1/page" = false
    ∧ extractPreviewImage (fun _ => FetchOutcome.err) "http://192.168.1.1/page"
        = ⟨none, false, false⟩ := by
  have h := c1_validator_rejects_and_no_fetch "http://192.168.1.1/page"
    (Or.inr ⟨⟨ "http:", "192.168.1.1", ""⟩, rfl,
      Or.inr (Or.inr ⟨192, 168, 1, 1, rfl, by omega, by omega, by omega,
        Or.inr (Or.inr (Or.inl ⟨rfl, rfl⟩))⟩)⟩)
  exact ⟨h.1, h.2 (fun _ => FetchOutcome.err)⟩

/-- C2: every image URL returned by the extraction pipeline has passed
re-validation after resolution — `extractPreviewImage` never returns a
string that `isValidUrl` rejects, and a matched og:image candidate whose
resolved URL is rejected is skipped in favour of the remaining fallback
chain. -/
theorem c2_result_revalidated :
    (∀ html url r, extractPreviewImageCore html url = some r → isValidUrl r = true)
    ∧ (∀ (fetcher : String → FetchOutcome) (url r : String),
        (extractPreviewImage fetcher url).result = some r → isValidUrl r = true)
    ∧ (∀ html url v r, extractMetaContent html "og:image" none = some v →
        resolveUrl v url = some r → isValidUrl r = false →
        extractPreviewImageCore html url = afterOg html url) := by
  refine ⟨fun html url r h => extractPreviewImageCore_valid html url r h, ?_, ?_⟩
  · intro fetcher url r h
    unfold extractPreviewImage at h
    split at h
    · split at h
      · simp at h
      · split at h
        · split at h
          · split at h
            · simp at h
            · exact extractPreviewImageCore_valid _ url r (by simpa using h)
          · simp at h
        · simp at h
    · simp at h
  · intro html url v r hog hres hval
    simp only [extractPreviewImageCore, hog, imageStageResult, hres, hval]
    simp

/-- C2 witness: a concrete extraction returning a URL that the validator
accepts. -/
theorem c2_witness : isValidUrl "https://a.com/x.png" = true :=
  c2_result_revalidated.1
    "<meta property=\"og:image\" content=\"https://a.com/x.png\">"
    "https://example.com/p" "https://a.com/x.png" rfl

/-- C3 counterexample: a document containing both an og:image tag and a
twitter:image tag on which the extractor returns the twitter:image value,
because the og:image candidate fails post-resolution validation — so the
claim that the og:image value is always returned, and that the later
candidates are consulted only when the earlier tags do not match, is false
as stated. -/
theorem c3_counterexample :
    extractMetaContent html_c3 "og:image" none = some "http://localhost/evil.jpg"
    ∧ extractMetaContent html_c3 "twitter:image" (some "twitter:image")
        = some "https://cdn.example.com/i.jpg"
    ∧ extractPreviewImageCore html_c3 "https://example.com/page"
        = some "https://cdn.example.com/i.jpg"
    ∧ some "https://cdn.example.com/i.jpg" ≠ some "http://localhost/evil.jpg" :=
  ⟨rfl, rfl, rfl, by decide⟩

/-- C3 (amended): the fixed og:image → twitter:image → generic
image/thumbnail priority, independent of document order, holds among
candidates whose resolved URLs pass validation: an og:image candidate
whose resolved URL validates wins; when og:image fails — no og:image match
at all, or an og:image candidate whose resolved URL is rejected — a
twitter:image candidate whose resolved URL validates wins; the generic
stage is consulted only when neither og:image nor twitter:image yields a
validated resolved URL; the returned string is the resolved URL of the
winning candidate. -/
theorem c3_amended_priority :
    (∀ html url v r, extractMetaContent html "og:image" none = some v →
       resolveUrl v url = some r → isValidUrl r = true →
       extractPreviewImageCore html url = some r)
    ∧ (∀ html url v r,
       (extractMetaContent html "og:image" none = none
        ∨ ∃ v0 r0, extractMetaContent html "og:image" none = some v0
            ∧ resolveUrl v0 url = some r0 ∧ isValidUrl r0 = false) →
       extractMetaContent html "twitter:image" (some "twitter:image") = some v →
       resolveUrl v url = some r → isValidUrl r = true →
       extractPreviewImageCore html url = some r)
    ∧ (∀ html url,
       (extractMetaContent html "og:image" none = none
        ∨ ∃ v r, extractMetaContent html "og:image" none = some v
            ∧ resolveUrl v url = some r ∧ isValidUrl r = false) →
       (extractMetaContent html "twitter:image" (some "twitter:image") = none
        ∨ ∃ v r, extractMetaContent html "twitter:image" (some "twitter:image") = some v
            ∧ resolveUrl v url = some r ∧ isValidUrl r = false) →
       extractPreviewImageCore html url = afterTwitter html url) := by
  refine ⟨?_, ?_, ?_⟩
  · intro html url v r hog hres hval
    simp [extractPreviewImageCore, hog, imageStageResult, hres, hval]
  · intro html url v r hog htw hres hval
    rcases hog with hog | ⟨v0, r0, hog, hres0, hval0⟩
    · simp [extractPreviewImageCore, hog, afterOg, htw, imageStageResult, hres, hval]
    · simp [extractPreviewImageCore, hog, afterOg, htw, imageStageResult, hres0, hval0,
        hres, hval]
  · intro html url hog htw
    have haft : afterOg html url = afterTwitter html url := by
      rcases htw with htw | ⟨v, r, htw, hres, hval⟩
      · simp [afterOg, htw]
      · simp [afterOg, htw, imageStageResult, hres, hval]
    rcases hog with hog | ⟨v, r, hog, hres, hval⟩
    · simp [extractPreviewImageCore, hog, haft]
    · simp [extractPreviewImageCore, hog, imageStageResult, hres, hval, haft]

/-- C3 witness: with both candidates valid the og:image value wins, and
on the counterexample document — og:image matched but rejected after
resolution — the amended twitter clause yields the validated twitter
value. -/
theorem c3_witness :
    extractPreviewImageCore
      "<meta property=\"og:image\" content=\"https://a.com/og.png\"><meta name=\"twitter:image\" content=\"https://a.com/tw.png\">"
      "https://example.com/p" = some "https://a.com/og.png"
    ∧ extractPreviewImageCore html_c3 "https://example.com/page"
        = some "https://cdn.example.com/i.jpg" := by
  constructor
  · exact c3_amended_priority.1 _ _ "https://a.com/og.png" _ rfl rfl rfl
  · exact c3_amended_priority.2.1 html_c3 "https://example.com/page"
      "https://cdn.example.com/i.jpg" "https://cdn.example.com/i.jpg"
      (Or.inr ⟨ "http://localhost/evil.jpg", "http://localhost/evil.jpg", rfl, rfl, rfl⟩)
      rfl rfl rfl

/-- C4 counterexample: a protocol-relative value on an http page is
resolved with the fixed literal scheme `https:`, not the scheme of the
page;
and a bare value that begins with the characters `http` passes through
unchanged instead of being rooted at the page host — so the
scheme-inheritance and bare-value clauses of the claim are false as
stated. -/
theorem c4_counterexample :
    resolveUrl "//cdn.example.com/image.jpg" "http://example.com/page"
      = some "https://cdn.example.com/image.jpg"
    ∧ some "https://cdn.example.com/image.jpg" ≠ some "http://cdn.example.com/image.jpg"
    ∧ resolveUrl "httpx.jpg" "https://example.com/page" = some "httpx.jpg"
    ∧ some "httpx.jpg" ≠ some "https://example.com/httpx.jpg" :=
  ⟨rfl, by decide, rfl, by decide⟩

/-- C4 (amended): a value beginning with // is resolved by prefixing the
literal scheme `https:` regardless of the scheme of the page; a value
beginning with a single / inherits the scheme and host of the page; any
other value not beginning with the characters `http` inherits the scheme
and host of the page and is treated as rooted; a value beginning with `http` (in particular an
absolute http or https URL) passes through unchanged.  In particular
`/images/preview.jpg` on page `https://example.com/recipe-page` resolves
to `https://example.com/images/preview.jpg`. -/
theorem c4_amended_resolution :
    (∀ img base u, parseUrl base = some u →
      (headEq ( "//".data) img.data = true →
        resolveUrl img base = some ( "https:" ++ img))
      ∧ (headEq ( "//".data) img.data = false → headEq ( "/".data) img.data = true →
        resolveUrl img base = some (u.protocol ++ "//" ++ u.host ++ img))
      ∧ (headEq ( "/".data) img.data = false → headEq ( "http".data) img.data = false →
        resolveUrl img base = some (u.protocol ++ "//" ++ u.host ++ "/" ++ img))
      ∧ (headEq ( "/".data) img.data = false → headEq ( "http".data) img.data = true →
        resolveUrl img base = some img))
    ∧ resolveUrl "/images/preview.jpg" "https://example.com/recipe-page"
        = some "https://example.com/images/preview.jpg" := by
  refine ⟨fun img base u hp => ⟨?_, ?_, ?_, ?_⟩, rfl⟩
  · intro h1
    simp [resolveUrl, h1]
  · intro h0 h1
    simp [resolveUrl, h0, h1, hp]
  · intro h1 h2
    simp [resolveUrl, dslash_headEq img.data h1, h1, h2, hp]
  · intro h1 h2
    simp [resolveUrl, dslash_headEq img.data h1, h1, h2]

/-- C4 witness: concrete resolutions through the amended clauses. -/
theorem c4_witness :
    resolveUrl "//x.com/a.png" "https://example.com/" = some "https://x.com/a.png"
    ∧ resolveUrl "pic.png" "https://example.com/dir" = some "https://example.com/pic.png" := by
  have h1 := c4_amended_resolution.1 "//x.com/a.png" "https://example.com/"
    ⟨ "https:", "example.com", ""⟩ rfl
  have h2 := c4_amended_resolution.1 "pic.png" "https://example.com/dir"
    ⟨ "https:", "example.com", ""⟩ rfl
  exact ⟨h1.1 rfl, (h2.2.2.1) rfl rfl⟩

/-- C5: when the response body exceeds the 1 MiB byte limit, the read is
abandoned and no image and no title is ever returned for that call,
regardless of what metadata the already-read prefix contained. -/
theorem c5_too_large_no_result (fetcher : String → FetchOutcome) (url : String)
    (r : FetchResp)
    (hf : fetcher url = FetchOutcome.resp r)
    (hsize : MAX_HTML_SIZE < sumBytes r.chunks) :
    (extractPreviewImage fetcher url).result = none
    ∧ ∀ t, extractTitle fetcher url ≠ Except.ok t := by
  have hread : readChunks r.chunks 0 = none :=
    readChunks_none r.chunks 0 (Nat.zero_le _) (by simpa using hsize)
  constructor
  · by_cases hv : isValidUrl url = true
    · by_cases hok : r.ok = true
      · by_cases hct : ctIncludesHtml r.contentType = true
        · simp [extractPreviewImage, hv, hf, hok, hct, hread]
        · simp [extractPreviewImage, hv, hf, hok, hct]
      · simp [extractPreviewImage, hv, hf, hok]
    · simp [extractPreviewImage, hv]
  · intro t
    by_cases hv : isValidUrl url = true
    · by_cases hok : r.ok = true
      · by_cases hct : ctIncludesHtml r.contentType = true
        · simp [extractTitle, hv, hf, hok, hct, hread]
        · simp [extractTitle, hv, hf, hok, hct]
      · simp [extractTitle, hv, hf, hok]
    · simp [extractTitle, hv]

/-- C5 witness: a single chunk one byte over the limit yields no image
even though it would otherwise be a fetchable HTML response. -/
theorem c5_witness :
    (extractPreviewImage
      (fun _ => FetchOutcome.resp ⟨true, some "text/html", [bigChunk]⟩)
      "https://example.com/page").result = none := by
  have hsize : MAX_HTML_SIZE < sumBytes [bigChunk] := by
    rw [sumBytes_cons, sumBytes_nil,
      show bigChunk.data = List.replicate 1048577 'a' from rfl, byteLen_replicate]
    decide
  exact (c5_too_large_no_result
    (fun _ => FetchOutcome.resp ⟨true, some "text/html", [bigChunk]⟩)
    "https://example.com/page" ⟨true, some "text/html", [bigChunk]⟩ rfl hsize).1

/-- C6: when the declared content type does not indicate HTML, extraction
fails after the headers without reading the body — for every body the
image call returns no image with the body unread, and the title call fails
as not-HTML. -/
theorem c6_not_html_no_body_read (fetcher : String → FetchOutcome) (url : String)
    (r : FetchResp)
    (hf : fetcher url = FetchOutcome.resp r)
    (hct : ctIncludesHtml r.contentType = false) :
    (extractPreviewImage fetcher url).result = none
    ∧ (extractPreviewImage fetcher url).bodyRead = false
    ∧ (isValidUrl url = true → r.ok = true →
        extractTitle fetcher url = Except.error TitleError.notHtml) := by
  refine ⟨?_, ?_, ?_⟩
  · by_cases hv : isValidUrl url = true
    · by_cases hok : r.ok = true
      · simp [extractPreviewImage, hv, hf, hok, hct]
      · simp [extractPreviewImage, hv, hf, hok]
    · simp [extractPreviewImage, hv]
  · by_cases hv : isValidUrl url = true
    · by_cases hok : r.ok = true
      · simp [extractPreviewImage, hv, hf, hok, hct]
      · simp [extractPreviewImage, hv, hf, hok]
    · simp [extractPreviewImage, hv]
  · intro hv hok
    simp [extractTitle, hv, hf, hok, hct]

/-- C6 witness: an application/json response yields no image, an unread
body, and a not-HTML failure of the title operation, for a body the model
never inspects. -/
theorem c6_witness :
    (extractPreviewImage
      (fun _ => FetchOutcome.resp ⟨true, some "application/json", [ "garbage"]⟩)
      "https://example.com/api").result = none
    ∧ (extractPreviewImage
      (fun _ => FetchOutcome.resp ⟨true, some "application/json", [ "garbage"]⟩)
      "https://example.com/api").bodyRead = false
    ∧ extractTitle
      (fun _ => FetchOutcome.resp ⟨true, some "application/json", [ "garbage"]⟩)
      "https://example.com/api" = Except.error TitleError.notHtml := by
  have h := c6_not_html_no_body_read
    (fun _ => FetchOutcome.resp ⟨true, some "application/json", [ "garbage"]⟩)
    "https://example.com/api" ⟨true, some "application/json", [ "garbage"]⟩ rfl rfl
  exact ⟨h.1, h.2.1, h.2.2 rfl rfl⟩

/-- C7: `extractPreviewImage` is best-effort — for every input URL and
every outcome of the fetch and parse stages (invalid or blocked URL,
network failure or timeout abort, non-2xx status, non-HTML content type,
oversized body, no matching meta tag) it returns no image; the model is a
total function, reflecting that the source wraps the whole pipeline in a
try/catch and never propagates an error. -/
theorem c7_best_effort (fetcher : String → FetchOutcome) (url : String) :
    (isValidUrl url = false → extractPreviewImage fetcher url = ⟨none, false, false⟩)
    ∧ (fetcher url = FetchOutcome.err → (extractPreviewImage fetcher url).result = none)
    ∧ (∀ r, fetcher url = FetchOutcome.resp r → r.ok = false →
        (extractPreviewImage fetcher url).result = none)
    ∧ (∀ r, fetcher url = FetchOutcome.resp r → ctIncludesHtml r.contentType = false →
        (extractPreviewImage fetcher url).result = none)
    ∧ (∀ r, fetcher url = FetchOutcome.resp r → MAX_HTML_SIZE < sumBytes r.chunks →
        (extractPreviewImage fetcher url).result = none)
    ∧ (∀ r html, fetcher url = FetchOutcome.resp r → readChunks r.chunks 0 = some html →
        extractMetaContent html "og:image" none = none →
        extractMetaContent html "twitter:image" (some "twitter:image") = none →
        extractMetaContent html "image" none = none →
        extractMetaContent html "thumbnail" (some "thumbnail") = none →
        (extractPreviewImage fetcher url).result = none) := by
  refine ⟨?_, ?_, ?_, ?_, ?_, ?_⟩
  · intro hv
    simp [extractPreviewImage, hv]
  · intro hf
    by_cases hv : isValidUrl url = true <;> simp [extractPreviewImage, hv, hf]
  · intro r hf hok
    by_cases hv : isValidUrl url = true <;> simp [extractPreviewImage, hv, hf, hok]
  · intro r hf hct
    by_cases hv : isValidUrl url = true
    · by_cases hok : r.ok = true <;> simp [extractPreviewImage, hv, hf, hok, hct]
    · simp [extractPreviewImage, hv]
  · intro r hf hsize
    have hread : readChunks r.chunks 0 = none :=
      readChunks_none r.chunks 0 (Nat.zero_le _) (by simpa using hsize)
    by_cases hv : isValidUrl url = true
    · by_cases hok : r.ok = true
      · by_cases hct : ctIncludesHtml r.contentType = true
        · simp [extractPreviewImage, hv, hf, hok, hct, hread]
        · simp [extractPreviewImage, hv, hf, hok, hct]
      · simp [extractPreviewImage, hv, hf, hok]
    · simp [extractPreviewImage, hv]
  · intro r html hf hread hog htw him hth
    have hcore : extractPreviewImageCore html url = none := by
      simp [extractPreviewImageCore, hog, afterOg, htw, afterTwitter, jsOr, him, hth]
    by_cases hv : isValidUrl url = true
    · by_cases hok : r.ok = true
      · by_cases hct : ctIncludesHtml r.contentType = true
        · simp [extractPreviewImage, hv, hf, hok, hct, hread, hcore]
        · simp [extractPreviewImage, hv, hf, hok, hct]
      · simp [extractPreviewImage, hv, hf, hok]
    · simp [extractPreviewImage, hv]

/-- C7 witness: a network failure (or timeout abort) yields no image. -/
theorem c7_witness :
    (extractPreviewImage (fun _ => FetchOutcome.err) "https://example.com/page").result
      = none :=
  (c7_best_effort (fun _ => FetchOutcome.err) "https://example.com/page").2.1 rfl

/-- C8: the metadata parser decodes exactly the listed entities
`&amp; &lt; &gt; &quot; &#x27; &#x2F;` to their literal characters — the
worker example value decodes as specified, each listed entity decodes to
its character, and a value containing no occurrence of any of the six
entity strings (in particular any other named entity or numeric character
reference) is left entirely unchanged. -/
theorem c8_entity_decoding :
    (extractMetaContent
      "<meta property=\"og:image\" content=\"https://example.com/image?param=value&amp;other=test\">"
      "og:image" none = some "https://example.com/image?param=value&other=test")
    ∧ (decodeEntities ( "&amp;".data) = "&".data
       ∧ decodeEntities ( "&lt;".data) = "<".data
       ∧ decodeEntities ( "&gt;".data) = ">".data
       ∧ decodeEntities ( "&quot;".data) = "\"".data
       ∧ decodeEntities ( "&#x27;".data) = [Char.ofNat 39]
       ∧ decodeEntities ( "&#x2F;".data) = "/".data)
    ∧ (∀ s : List Char,
        hasSub ( "&amp;".data) s = false → hasSub ( "&lt;".data) s = false →
        hasSub ( "&gt;".data) s = false → hasSub ( "&quot;".data) s = false →
        hasSub ( "&#x27;".data) s = false → hasSub ( "&#x2F;".data) s = false →
        decodeEntities s = s) :=
  ⟨rfl, ⟨rfl, rfl, rfl, rfl, rfl, rfl⟩, decodeEntities_id⟩

/-- C8 witness: a value holding a foreign named entity and a decimal
numeric reference passes through the decoder unchanged. -/
theorem c8_witness : decodeEntities ( "&copy;&#65;x".data) = "&copy;&#65;x".data :=
  c8_entity_decoding.2.2 ( "&copy;&#65;x".data) rfl rfl rfl rfl rfl rfl

/-- C9: for every successfully fetched HTML document in which no title
field matches — no og:title tag, no twitter:title tag, no title tag
text — the extract-title operation returns the request hostname as the
title, not an error. -/
theorem c9_title_hostname_fallback (fetcher : String → FetchOutcome)
    (url html : String) (u : URLObj) (r : FetchResp)
    (hv : isValidUrl url = true)
    (hf : fetcher url = FetchOutcome.resp r)
    (hok : r.ok = true)
    (hct : ctIncludesHtml r.contentType = true)
    (hread : readChunks r.chunks 0 = some html)
    (hp : parseUrl url = some u)
    (h1 : extractMetaContent html "og:title" none = none)
    (h2 : extractMetaContent html "twitter:title" (some "twitter:title") = none)
    (h3 : titleTagContent html = none) :
    extractTitle fetcher url = Except.ok u.hostname := by
  simp [extractTitle, hv, hf, hok, hct, hread, extractTitleCore, h1, h2, h3,
    hostnameOf, hp]

/-- C9 witness: a document with no title fields on page
https://example.com/page yields the hostname example.com. -/
theorem c9_witness :
    extractTitle
      (fun _ => FetchOutcome.resp ⟨true, some "text/html", [ "<html><head></head></html>"]⟩)
      "https://example.com/page" = Except.ok "example.com" :=
  c9_title_hostname_fallback
    (fun _ => FetchOutcome.resp ⟨true, some "text/html", [ "<html><head></head></html>"]⟩)
    "https://example.com/page" "<html><head></head></html>"
    ⟨ "https:", "example.com", ""⟩
    ⟨true, some "text/html", [ "<html><head></head></html>"]⟩
    rfl rfl rfl rfl rfl rfl rfl rfl rfl

/-- C10: the entity decoder is a fixed sequence of global replacements
with `&amp;` first, so decoding is not single-pass — the doubly-encoded
value `&amp;lt;` decodes all the way to the character `<` rather than to
the literal text `&lt;`, both at the decoder and end to end through
`extractMetaContent`. -/
theorem c10_double_decoding :
    decodeEntities ( "&amp;lt;".data) = "<".data
    ∧ decodeEntities ( "&amp;lt;".data) ≠ "&lt;".data
    ∧ extractMetaContent html_c10 "og:image" none = some "x<y" :=
  ⟨rfl, by decide, rfl⟩
